import Mathlib

/-!
Verification of the File Ingestion & Retrieval Service specification against
the repository source (a Django file-upload application).

The development has two layers.

The first layer embeds the code that is present in the source file
`Django_Code_notes/Django_uploadfile.py`: the `Document` model
(description, document file, uploaded_at with auto_now_add), the
`DocumentForm` (fields description and document, document required),
and the two views `upload_file` and `file_list`.

The second layer models the spec's abstract core (Blob Store, Metadata
Registry, Ingestion Coordinator, Retrieval Gateway).  Those components are
backed by framework code (Django ORM and storage) that is not part of the
repository, so they are modelled from the spec's contracts (sections 4.1-4.4)
and verified against the spec's claimed properties.
-/

/-- Byte content of an uploaded file, modelled as a list of byte values. -/
abbrev Bytes := List Nat

/-! ## Layer 1: the Django views from the source -/

/-- HTTP request method, as inspected by the `upload_file` view
(`request.method == 'POST'`). -/
inductive HttpMethod where
  | get
  | post
  deriving DecidableEq

/-- The parts of a Django request the `upload_file` view reads: the method,
`request.POST` (the description field) and `request.FILES` (the optional
uploaded file: its client filename and its bytes). -/
structure HttpRequest where
  method : HttpMethod
  description : String
  filePart : Option (String × Bytes)
  deriving DecidableEq

/-- The two response shapes produced by the views: `redirect('file_list')`
and `render(request, template, context)` (the context is not modelled). -/
inductive HttpResponse where
  | redirect (urlName : String)
  | render (template : String)
  deriving DecidableEq

/-- The `Document` model from `myapp/models.py`: `description`
(CharField, blank allowed), `document` (FileField, stored path under
`upload_to='documents/'`), `uploaded_at` (DateTimeField auto_now_add),
plus the implicit auto-assigned primary key `pk`. -/
structure Document where
  pk : Nat
  description : String
  document : String
  uploaded_at : Nat
  deriving DecidableEq

/-- The persistent state touched by the views: the media storage
(path to bytes), the `Document` table in insertion order, the next
auto-increment primary key, and the current time used by auto_now_add. -/
structure DjangoState where
  media : List (String × Bytes)
  documents : List Document
  nextPk : Nat
  now : Nat
  deriving DecidableEq

/-- The initial state: empty media storage, empty table, first pk is 1. -/
def djInit : DjangoState :=
  { media := [], documents := [], nextPk := 1, now := 0 }

/-- Validity of `DocumentForm(request.POST, request.FILES)`: the form's
fields are `description` (blank=True, so always acceptable) and `document`
(a required FileField), so the form is valid exactly when a file part was
submitted. -/
def DocumentForm_is_valid (req : HttpRequest) : Bool :=
  req.filePart.isSome

/-- Saving a valid `DocumentForm` (`form.save()`): the file bytes are
written to media storage under `upload_to='documents/'`, and a `Document`
row is inserted with the auto-assigned pk and auto_now_add timestamp. -/
def DocumentForm_save (s : DjangoState) (desc : String) (fp : String × Bytes) : DjangoState :=
  { media := s.media ++ [("documents/" ++ fp.1, fp.2)],
    documents := s.documents ++
      [{ pk := s.nextPk, description := desc,
         document := "documents/" ++ fp.1, uploaded_at := s.now }],
    nextPk := s.nextPk + 1,
    now := s.now + 1 }

/-- The `upload_file` view from `myapp/views.py`: on POST it binds the
form; if the form is valid it saves and redirects to `file_list`,
otherwise (and on GET) it renders the upload form template. -/
def upload_file (s : DjangoState) (req : HttpRequest) : HttpResponse × DjangoState :=
  match req.method with
  | HttpMethod.post =>
    if DocumentForm_is_valid req then
      match req.filePart with
      | some fp => (HttpResponse.redirect "file_list", DocumentForm_save s req.description fp)
      | none => (HttpResponse.render "myapp/upload_file.html", s)
    else
      (HttpResponse.render "myapp/upload_file.html", s)
  | HttpMethod.get => (HttpResponse.render "myapp/upload_file.html", s)

/-- The `file_list` view: `Document.objects.all()`.  The `Document` model
declares no `Meta.ordering` and the view applies no `order_by`, so the
rows come back in table (insertion) order. -/
def file_list (s : DjangoState) : List Document :=
  s.documents

/-- States reachable by the Django views from the initial state
(`file_list` is read-only, so `upload_file` is the only mutating view). -/
inductive DjReachable : DjangoState → Prop where
  | init : DjReachable djInit
  | step (s : DjangoState) (req : HttpRequest) :
      DjReachable s → DjReachable (upload_file s req).2

/-- The ordering claimed by the spec for `list`: newest first by
`createdAt` (`uploaded_at`), ties broken by descending id (`pk`). -/
def newestFirst : List Document → Bool
  | a :: b :: rest =>
    (decide (b.uploaded_at < a.uploaded_at) ||
      (decide (b.uploaded_at = a.uploaded_at) && decide (b.pk < a.pk))) &&
    newestFirst (b :: rest)
  | _ => true

/-- Invariant of the Django layer: pks and timestamps of stored rows are
below the counters, and rows are strictly increasing in pk and timestamp
in insertion order. -/
structure DjInv (s : DjangoState) : Prop where
  bound : ∀ d ∈ s.documents, d.pk < s.nextPk ∧ d.uploaded_at < s.now
  order : s.documents.Pairwise (fun a b => a.pk < b.pk ∧ a.uploaded_at < b.uploaded_at)

/-! ## Layer 2: the spec's core service, modelled from the spec -/

/-- Modelled from the spec: the `UploadRecord` of section 3.  The record
fields are as listed there; `storageKey` is an opaque identifier (used
only for equality and lookup), modelled as the numeric key generated by
the Blob Store. -/
structure UploadRecord where
  id : Nat
  description : String
  storageKey : Nat
  originalFilename : String
  contentType : String
  sizeBytes : Nat
  createdAt : Nat
  deriving DecidableEq

/-- Modelled from the spec: the combined persistent state of the Blob
Store (key to bytes) and the Metadata Registry (records in insertion
order, the atomically incremented id counter, the collision-free key
counter, and the clock supplying `createdAt` timestamps). -/
structure ServiceState where
  blobs : List (Nat × Bytes)
  records : List UploadRecord
  nextId : Nat
  nextKey : Nat
  clock : Nat
  deriving DecidableEq

/-- The empty initial service state; the first assigned id is 1, matching
the spec's scenario (first record has id=1). -/
def initState : ServiceState :=
  { blobs := [], records := [], nextId := 1, nextKey := 1, clock := 0 }

/-- Modelled from the spec: the error taxonomy of section 7 restricted to
the kinds the modelled operations can raise. -/
inductive IngestError where
  | invalidFilename
  | emptyPayload
  | payloadTooLarge
  | validationFailed
  deriving DecidableEq

/-- Modelled from the spec: `NotFoundError` for unknown ids and keys. -/
inductive LookupError where
  | notFound
  deriving DecidableEq

/-- Modelled from the spec: Blob Store `put` (section 4.1) — writes the
content at a freshly generated, collision-free key and returns the key. -/
def blobPut (s : ServiceState) (content : Bytes) : Nat × ServiceState :=
  (s.nextKey,
    { s with blobs := s.blobs ++ [(s.nextKey, content)], nextKey := s.nextKey + 1 })

/-- Modelled from the spec: Blob Store `get` — the bytes stored at a key,
or nothing when the key is unknown. -/
def blobGet (s : ServiceState) (key : Nat) : Option Bytes :=
  (s.blobs.find? (fun b => b.1 == key)).map Prod.snd

/-- Modelled from the spec: Blob Store `delete` — idempotent removal of a
key (succeeds even when the key is already absent). -/
def blobDelete (s : ServiceState) (key : Nat) : ServiceState :=
  { s with blobs := s.blobs.filter (fun b => b.1 != key) }

/-- Modelled from the spec: Blob Store `exists`. -/
def blobExists (s : ServiceState) (key : Nat) : Bool :=
  s.blobs.any (fun b => b.1 == key)

/-- Modelled from the spec: the filename constraint of section 4.3 —
non-empty and free of path-separator characters. -/
def validFilename (name : String) : Bool :=
  !(name == "") && name.data.all (fun c => !(c == '/') && !(c == '\\'))

/-- Modelled from the spec: Metadata Registry `insert` (section 4.2) —
assigns the next unique id and the creation timestamp, appends the
record; fails with a validation error when `sizeBytes` is not positive. -/
def registryInsert (s : ServiceState) (description : String) (storageKey : Nat)
    (originalFilename contentType : String) (sizeBytes : Nat) :
    Except IngestError UploadRecord × ServiceState :=
  if sizeBytes = 0 then (Except.error IngestError.validationFailed, s)
  else
    (Except.ok
      { id := s.nextId, description := description, storageKey := storageKey,
        originalFilename := originalFilename, contentType := contentType,
        sizeBytes := sizeBytes, createdAt := s.clock },
     { s with
        records := s.records ++
          [{ id := s.nextId, description := description, storageKey := storageKey,
             originalFilename := originalFilename, contentType := contentType,
             sizeBytes := sizeBytes, createdAt := s.clock }],
        nextId := s.nextId + 1,
        clock := s.clock + 1 })

/-- The record with a given id, if present in the registry. -/
def registryGet (s : ServiceState) (i : Nat) : Option UploadRecord :=
  s.records.find? (fun r => r.id == i)

/-- Modelled from the spec: Metadata Registry `get` — fails with
`NotFoundError` when the id is absent. -/
def registryGetOp (s : ServiceState) (i : Nat) : Except LookupError UploadRecord :=
  match registryGet s i with
  | some r => Except.ok r
  | none => Except.error LookupError.notFound

/-- Modelled from the spec: Metadata Registry `delete` — removes the
record only (never the blob); fails with `NotFoundError` when absent. -/
def registryDelete (s : ServiceState) (i : Nat) : Except LookupError Unit × ServiceState :=
  match registryGet s i with
  | none => (Except.error LookupError.notFound, s)
  | some _ => (Except.ok (), { s with records := s.records.filter (fun r => r.id != i) })

/-- Modelled from the spec: Ingestion Coordinator `ingest` (section 4.3).
Validation in order, first failure wins: filename, then declared size
(zero, then over the configured maximum), then content type; on success a
blob write followed by a registry insert, compensating a failed insert by
deleting the written blob and surfacing the registry's error. -/
def ingest (maxSize : Nat) (s : ServiceState) (description filename contentType : String)
    (content : Bytes) (declaredSize : Nat) :
    Except IngestError UploadRecord × ServiceState :=
  if validFilename filename = false then (Except.error IngestError.invalidFilename, s)
  else if declaredSize = 0 then (Except.error IngestError.emptyPayload, s)
  else if maxSize < declaredSize then (Except.error IngestError.payloadTooLarge, s)
  else if contentType == "" then (Except.error IngestError.validationFailed, s)
  else
    match blobPut s content with
    | (key, s1) =>
      match registryInsert s1 description key filename contentType declaredSize with
      | (Except.ok r, s2) => (Except.ok r, s2)
      | (Except.error e, s2) => (Except.error e, blobDelete s2 key)

/-- Modelled from the spec: Retrieval Gateway `resolve` (section 4.4) —
looks up the record, then opens the blob; `NotFoundError` is propagated
from either leaf; returns the bytes, the content type and the suggested
filename. -/
def resolve (s : ServiceState) (i : Nat) :
    Except LookupError (Bytes × String × String) :=
  match registryGet s i with
  | none => Except.error LookupError.notFound
  | some r =>
    match blobGet s r.storageKey with
    | none => Except.error LookupError.notFound
    | some b => Except.ok (b, r.contentType, r.originalFilename)

/-- Modelled from the spec: the coordinator's delete flow (section 4.3) —
look up the record, delete the blob, then delete the record. -/
def coordDelete (s : ServiceState) (i : Nat) : Except LookupError Unit × ServiceState :=
  match registryGet s i with
  | none => (Except.error LookupError.notFound, s)
  | some r => registryDelete (blobDelete s r.storageKey) i

/-- One argument tuple for `ingest`: description, filename, content type,
content bytes and declared size. -/
abbrev IngestArgs := String × String × String × Bytes × Nat

/-- A batch of `ingest` calls run one after another (an arbitrary
interleaving of concurrent callers, each operation atomic), collecting
the successfully created records. -/
def ingestMany (maxSize : Nat) : ServiceState → List IngestArgs →
    List UploadRecord × ServiceState
  | s, [] => ([], s)
  | s, (d, f, ct, c, n) :: rest =>
    match ingest maxSize s d f ct c n with
    | (Except.ok r, s1) =>
      let tail := ingestMany maxSize s1 rest
      (r :: tail.1, tail.2)
    | (Except.error _, s1) => ingestMany maxSize s1 rest

/-- One state-changing public operation of the service (`list` and
`resolve` are read-only). -/
inductive Step : ServiceState → ServiceState → Prop where
  | ingestOp (s : ServiceState) (maxSize : Nat) (d f ct : String) (c : Bytes) (n : Nat) :
      Step s (ingest maxSize s d f ct c n).2
  | deleteOp (s : ServiceState) (i : Nat) :
      Step s (coordDelete s i).2

/-- Service states reachable by the public operations from the initial
state. -/
inductive Reachable : ServiceState → Prop where
  | init : Reachable initState
  | next (s s' : ServiceState) : Reachable s → Step s s' → Reachable s'

/-- The service invariant: ids, storage keys and timestamps of live
records are below their counters and strictly increase in insertion
order; blob keys are below the key counter; and every live record's
storage key has a backing blob. -/
structure SvcInv (s : ServiceState) : Prop where
  recBound : ∀ r ∈ s.records,
    r.id < s.nextId ∧ r.storageKey < s.nextKey ∧ r.createdAt < s.clock
  blobBound : ∀ b ∈ s.blobs, b.1 < s.nextKey
  recOrder : s.records.Pairwise (fun a b =>
    a.id < b.id ∧ a.storageKey < b.storageKey ∧ a.createdAt < b.createdAt)
  linked : ∀ r ∈ s.records, ∃ b ∈ s.blobs, b.1 = r.storageKey

/-! ## Concrete states used by witnesses and counterexamples -/

/-- A POST request uploading a first file. -/
def djReqA : HttpRequest :=
  { method := HttpMethod.post, description := "first", filePart := some ("a.txt", [65]) }

/-- A POST request uploading a second file. -/
def djReqB : HttpRequest :=
  { method := HttpMethod.post, description := "second", filePart := some ("b.txt", [66]) }

/-- The Django state after uploading two files from the initial state. -/
def djTwo : DjangoState :=
  (upload_file (upload_file djInit djReqA).2 djReqB).2

/-- The record created by the spec's first example ingest. -/
def recOne : UploadRecord :=
  { id := 1, description := "invoice", storageKey := 1, originalFilename := "a.pdf",
    contentType := "application/pdf", sizeBytes := 5, createdAt := 0 }

/-- The service state after the spec's example ingest (5 bytes, id 1). -/
def svcOne : ServiceState :=
  (ingest 100 initState "invoice" "a.pdf" "application/pdf" [1, 2, 3, 4, 5] 5).2

/-- The service state after a second ingest on top of `svcOne`. -/
def svcTwo : ServiceState :=
  (ingest 100 svcOne "second" "b.txt" "text/plain" [9] 1).2

/-! ## Django-layer lemmas -/

lemma djInv_init : DjInv djInit := by
  constructor <;> simp [djInit]

lemma djInv_upload (s : DjangoState) (req : HttpRequest) (h : DjInv s) :
    DjInv (upload_file s req).2 := by
  obtain ⟨hb, ho⟩ := h
  rcases req with ⟨m, d, fp⟩
  cases m with
  | get => exact ⟨hb, ho⟩
  | post =>
    cases fp with
    | none => exact ⟨hb, ho⟩
    | some fp =>
      simp only [upload_file, DocumentForm_is_valid, Option.isSome_some, if_true,
        DocumentForm_save]
      constructor
      · intro q hq
        rcases List.mem_append.1 hq with hq | hq
        · have := hb q hq
          exact ⟨Nat.lt_succ_of_lt this.1, Nat.lt_succ_of_lt this.2⟩
        · simp only [List.mem_singleton] at hq
          subst hq
          exact ⟨Nat.lt_succ_self _, Nat.lt_succ_self _⟩
      · rw [List.pairwise_append]
        refine ⟨ho, by simp, ?_⟩
        intro a ha b hbmem
        simp only [List.mem_singleton] at hbmem
        subst hbmem
        exact (hb a ha)

lemma djReachable_inv {s : DjangoState} (h : DjReachable s) : DjInv s := by
  induction h with
  | init => exact djInv_init
  | step s req _ ih => exact djInv_upload s req ih

/-! ## Claim C2 -/

/-- Claim C2, counterexample: after two uploads the `file_list` view
returns the rows oldest-first (pk 1 with timestamp 0 before pk 2 with
timestamp 1), so the sequence is not ordered newest-first by creation
time with ties broken by descending id. -/
theorem file_list_newest_first_counterexample :
    newestFirst (file_list djTwo) = false := by decide

/-- Claim C2 (amended): for every reachable state, the sequence returned
by the list view is in insertion order — strictly ascending id and
strictly ascending creation time (oldest-first) — because
`Document.objects.all()` applies no ordering. -/
theorem file_list_insertion_order (s : DjangoState) (h : DjReachable s) :
    (file_list s).Pairwise (fun a b => a.pk < b.pk ∧ a.uploaded_at < b.uploaded_at) :=
  (djReachable_inv h).order

/-- Witness for the amended claim C2 at the concrete two-upload state. -/
theorem file_list_insertion_order_witness :
    (file_list djTwo).Pairwise (fun a b => a.pk < b.pk ∧ a.uploaded_at < b.uploaded_at) :=
  file_list_insertion_order djTwo
    (DjReachable.step _ djReqB (DjReachable.step _ djReqA DjReachable.init))

/-! ## Claim C10 -/

/-- Claim C10: a POST whose form data is invalid (no file part, so
`DocumentForm.is_valid()` is false) saves nothing — the state, including
media storage and the `Document` table, is returned unchanged — and the
view renders the upload form template instead of redirecting. -/
theorem upload_file_invalid_noop (s : DjangoState) (req : HttpRequest)
    (hm : req.method = HttpMethod.post) (hv : DocumentForm_is_valid req = false) :
    upload_file s req = (HttpResponse.render "myapp/upload_file.html", s) := by
  unfold upload_file
  rw [hm, hv]
  simp

/-- Witness for claim C10: a concrete POST without a file part. -/
theorem upload_file_invalid_noop_witness :
    upload_file djInit { method := HttpMethod.post, description := "d", filePart := none } =
      (HttpResponse.render "myapp/upload_file.html", djInit) :=
  upload_file_invalid_noop djInit
    { method := HttpMethod.post, description := "d", filePart := none } rfl rfl

/-! ## Service-layer lemmas -/

lemma registryGet_blobDelete (s : ServiceState) (k : Nat) (i : Nat) :
    registryGet (blobDelete s k) i = registryGet s i := rfl

lemma ingest_ok_eq {maxSize : Nat} {s : ServiceState} {d f ct : String} {c : Bytes} {n : Nat}
    {r : UploadRecord} {s' : ServiceState}
    (h : ingest maxSize s d f ct c n = (Except.ok r, s')) :
    r = { id := s.nextId, description := d, storageKey := s.nextKey, originalFilename := f,
          contentType := ct, sizeBytes := n, createdAt := s.clock } ∧
    s' = { blobs := s.blobs ++ [(s.nextKey, c)],
           records := s.records ++
             [{ id := s.nextId, description := d, storageKey := s.nextKey,
                originalFilename := f, contentType := ct, sizeBytes := n,
                createdAt := s.clock }],
           nextId := s.nextId + 1, nextKey := s.nextKey + 1, clock := s.clock + 1 } := by
  unfold ingest at h
  split at h
  · simp at h
  split at h
  · simp at h
  split at h
  · simp at h
  split at h
  · simp at h
  rename_i h1 h2 h3 h4
  simp only [blobPut, registryInsert, if_neg h2] at h
  rw [Prod.mk.injEq] at h
  obtain ⟨h5, h6⟩ := h
  rw [Except.ok.injEq] at h5
  exact ⟨h5.symm, h6.symm⟩

lemma ingest_err_eq {maxSize : Nat} {s : ServiceState} {d f ct : String} {c : Bytes} {n : Nat}
    {e : IngestError} {s' : ServiceState}
    (h : ingest maxSize s d f ct c n = (Except.error e, s')) : s' = s := by
  unfold ingest at h
  split at h
  · rw [Prod.mk.injEq] at h
    exact h.2.symm
  split at h
  · rw [Prod.mk.injEq] at h
    exact h.2.symm
  split at h
  · rw [Prod.mk.injEq] at h
    exact h.2.symm
  split at h
  · rw [Prod.mk.injEq] at h
    exact h.2.symm
  rename_i h1 h2 h3 h4
  simp only [blobPut, registryInsert, if_neg h2] at h
  simp at h

lemma svcInv_init : SvcInv initState := by
  constructor <;> simp [initState]

lemma svcInv_ingest (maxSize : Nat) (s : ServiceState) (d f ct : String) (c : Bytes) (n : Nat)
    (h : SvcInv s) : SvcInv (ingest maxSize s d f ct c n).2 := by
  rcases hres : ingest maxSize s d f ct c n with ⟨res, s'⟩
  rcases res with e | r
  · show SvcInv s'
    rw [ingest_err_eq hres]
    exact h
  · show SvcInv s'
    obtain ⟨hr, hs'⟩ := ingest_ok_eq hres
    subst hs'
    constructor
    · intro q hq
      rcases List.mem_append.1 hq with hq | hq
      · have := h.recBound q hq
        exact ⟨Nat.lt_succ_of_lt this.1, Nat.lt_succ_of_lt this.2.1,
          Nat.lt_succ_of_lt this.2.2⟩
      · simp only [List.mem_singleton] at hq
        subst hq
        exact ⟨Nat.lt_succ_self _, Nat.lt_succ_self _, Nat.lt_succ_self _⟩
    · intro b hb
      rcases List.mem_append.1 hb with hb | hb
      · exact Nat.lt_succ_of_lt (h.blobBound b hb)
      · simp only [List.mem_singleton] at hb
        subst hb
        exact Nat.lt_succ_self _
    · rw [List.pairwise_append]
      refine ⟨h.recOrder, by simp, ?_⟩
      intro a ha b hb
      simp only [List.mem_singleton] at hb
      subst hb
      exact h.recBound a ha
    · intro q hq
      rcases List.mem_append.1 hq with hq | hq
      · obtain ⟨b, hb, hbk⟩ := h.linked q hq
        exact ⟨b, List.mem_append_left _ hb, hbk⟩
      · simp only [List.mem_singleton] at hq
        subst hq
        exact ⟨(s.nextKey, c), List.mem_append_right _ (List.mem_singleton_self _), rfl⟩

lemma coordDelete_some_eq {s : ServiceState} {i : Nat} {r : UploadRecord}
    (hg : registryGet s i = some r) :
    coordDelete s i = (Except.ok (),
      { blobs := s.blobs.filter (fun b => b.1 != r.storageKey),
        records := s.records.filter (fun q => q.id != i),
        nextId := s.nextId, nextKey := s.nextKey, clock := s.clock }) := by
  unfold coordDelete registryDelete
  simp only [registryGet_blobDelete, hg]
  simp only [blobDelete]

lemma coordDelete_none_eq {s : ServiceState} {i : Nat}
    (hg : registryGet s i = none) :
    coordDelete s i = (Except.error LookupError.notFound, s) := by
  unfold coordDelete
  simp only [hg]

lemma svcInv_coordDelete (s : ServiceState) (i : Nat) (h : SvcInv s) :
    SvcInv (coordDelete s i).2 := by
  rcases hg : registryGet s i with _ | r
  · rw [coordDelete_none_eq hg]
    exact h
  · have hrmem : r ∈ s.records := List.mem_of_find?_eq_some hg
    have hrid : r.id = i := by simpa using List.find?_some hg
    rw [coordDelete_some_eq hg]
    constructor
    · intro q hq
      exact h.recBound q (List.mem_of_mem_filter hq)
    · intro b hb
      exact h.blobBound b (List.mem_of_mem_filter hb)
    · exact List.Pairwise.sublist (List.filter_sublist _) h.recOrder
    · intro q hq
      have hqmem : q ∈ s.records := List.mem_of_mem_filter hq
      have hqid : q.id ≠ i := by simpa using List.of_mem_filter hq
      obtain ⟨b, hb, hbk⟩ := h.linked q hqmem
      have hqr : q ≠ r := fun hqr => hqid (hqr ▸ hrid)
      have hp : s.records.Pairwise (fun a b : UploadRecord =>
          a.storageKey ≠ b.storageKey) :=
        h.recOrder.imp (fun hab => Nat.ne_of_lt hab.2.1)
      have hkeyne : q.storageKey ≠ r.storageKey :=
        List.Pairwise.forall (fun _ _ hab => Ne.symm hab) hp hqmem hrmem hqr
      refine ⟨b, List.mem_filter.2 ⟨hb, ?_⟩, hbk⟩
      simp [hbk, hkeyne]

lemma step_inv {s s' : ServiceState} (hstep : Step s s') (h : SvcInv s) : SvcInv s' := by
  cases hstep with
  | ingestOp maxSize d f ct c n => exact svcInv_ingest maxSize s d f ct c n h
  | deleteOp i => exact svcInv_coordDelete s i h

lemma reachable_inv {s : ServiceState} (h : Reachable s) : SvcInv s := by
  induction h with
  | init => exact svcInv_init
  | next s s' _ hstep ih => exact step_inv hstep ih

lemma find?_append_fresh {α : Type} (key : α → Nat) {l : List α} {x : α}
    (hfresh : ∀ q ∈ l, key q ≠ key x) :
    (l ++ [x]).find? (fun q => key q == key x) = some x := by
  rw [List.find?_append]
  have hnone : l.find? (fun q => key q == key x) = none := by
    rw [List.find?_eq_none]
    intro q hq
    simp only [beq_iff_eq]
    exact hfresh q hq
  rw [hnone]
  simp

lemma resolve_eq_ok {s : ServiceState} {i : Nat} {r : UploadRecord} {b : Bytes}
    (h1 : registryGet s i = some r) (h2 : blobGet s r.storageKey = some b) :
    resolve s i = Except.ok (b, r.contentType, r.originalFilename) := by
  unfold resolve
  rw [h1]
  show (match blobGet s r.storageKey with
      | none => Except.error LookupError.notFound
      | some bb => Except.ok (bb, r.contentType, r.originalFilename)) =
    Except.ok (b, r.contentType, r.originalFilename)
  rw [h2]

lemma resolve_eq_notFound {s : ServiceState} {i : Nat}
    (h1 : registryGet s i = none) :
    resolve s i = Except.error LookupError.notFound := by
  unfold resolve
  rw [h1]

lemma reachable_svcOne : Reachable svcOne :=
  Reachable.next _ _ Reachable.init
    (Step.ingestOp initState 100 "invoice" "a.pdf" "application/pdf" [1, 2, 3, 4, 5] 5)

lemma reachable_svcTwo : Reachable svcTwo :=
  Reachable.next _ _ reachable_svcOne
    (Step.ingestOp svcOne 100 "second" "b.txt" "text/plain" [9] 1)

/-! ## Claim C1 -/

/-- Claim C1: for every reachable state and every valid upload input
(one on which `ingest` succeeds), resolving the returned record's id in
the resulting state yields exactly the submitted bytes together with the
submitted content type (and the submitted filename). -/
theorem ingest_resolve_roundtrip (maxSize : Nat) (s : ServiceState)
    (d f ct : String) (c : Bytes) (n : Nat) (r : UploadRecord) (s' : ServiceState)
    (hs : Reachable s) (h : ingest maxSize s d f ct c n = (Except.ok r, s')) :
    resolve s' r.id = Except.ok (c, ct, f) := by
  have hinv := reachable_inv hs
  obtain ⟨hr, hs'⟩ := ingest_ok_eq h
  subst hr hs'
  have hg1 : registryGet
      { blobs := s.blobs ++ [(s.nextKey, c)],
        records := s.records ++
          [{ id := s.nextId, description := d, storageKey := s.nextKey,
             originalFilename := f, contentType := ct, sizeBytes := n,
             createdAt := s.clock }],
        nextId := s.nextId + 1, nextKey := s.nextKey + 1, clock := s.clock + 1 }
      ({ id := s.nextId, description := d, storageKey := s.nextKey,
         originalFilename := f, contentType := ct, sizeBytes := n,
         createdAt := s.clock } : UploadRecord).id = some
      { id := s.nextId, description := d, storageKey := s.nextKey,
        originalFilename := f, contentType := ct, sizeBytes := n,
        createdAt := s.clock } :=
    find?_append_fresh UploadRecord.id
      (fun q hq => Nat.ne_of_lt (hinv.recBound q hq).1)
  have hg2 : blobGet
      { blobs := s.blobs ++ [(s.nextKey, c)],
        records := s.records ++
          [{ id := s.nextId, description := d, storageKey := s.nextKey,
             originalFilename := f, contentType := ct, sizeBytes := n,
             createdAt := s.clock }],
        nextId := s.nextId + 1, nextKey := s.nextKey + 1, clock := s.clock + 1 }
      ({ id := s.nextId, description := d, storageKey := s.nextKey,
         originalFilename := f, contentType := ct, sizeBytes := n,
         createdAt := s.clock } : UploadRecord).storageKey = some c := by
    show ((s.blobs ++ [(s.nextKey, c)]).find?
        (fun b => b.1 == ((s.nextKey, c) : Nat × Bytes).1)).map Prod.snd = some c
    rw [find?_append_fresh Prod.fst (fun b hb => Nat.ne_of_lt (hinv.blobBound b hb))]
    rfl
  exact resolve_eq_ok hg1 hg2

/-- Witness for claim C1: the spec's example scenario — ingest 5 bytes as
"a.pdf" with content type "application/pdf", then resolve id 1. -/
theorem ingest_resolve_roundtrip_witness :
    resolve (ingest 100 initState "invoice" "a.pdf" "application/pdf" [1, 2, 3, 4, 5] 5).2 1 =
      Except.ok ([1, 2, 3, 4, 5], "application/pdf", "a.pdf") := by
  have h := ingest_resolve_roundtrip 100 initState "invoice" "a.pdf" "application/pdf"
    [1, 2, 3, 4, 5] 5 recOne svcOne Reachable.init (by rfl)
  exact h

/-! ## Claim C3 -/

/-- Claim C3: in every state reachable by the public operations, every
storage key referenced by a live record corresponds to an existing blob
(no dangling records); the compensation path of `ingest` deletes the
freshly written blob whenever the registry insert fails, so such a state
never escapes. -/
theorem no_dangling_records (s : ServiceState) (hs : Reachable s) :
    ∀ r ∈ s.records, blobExists s r.storageKey = true := by
  intro r hr
  obtain ⟨b, hb, hbk⟩ := (reachable_inv hs).linked r hr
  unfold blobExists
  rw [List.any_eq_true]
  exact ⟨b, hb, by simp [hbk]⟩

/-- Witness for claim C3 at the concrete one-ingest state. -/
theorem no_dangling_records_witness : blobExists svcOne recOne.storageKey = true :=
  no_dangling_records svcOne reachable_svcOne recOne (by decide)

/-! ## Claim C4 -/

/-- Claim C4: ingesting with an empty filename or a filename containing a
path separator fails with the invalid-filename error and leaves the state
untouched (so no blob write and no record insert happened); the
conclusion holds for every size, content type and content, showing the
filename check is the first validation performed. -/
theorem ingest_invalid_filename (maxSize : Nat) (s : ServiceState)
    (d f ct : String) (c : Bytes) (n : Nat)
    (hf : f = "" ∨ '/' ∈ f.data ∨ '\\' ∈ f.data) :
    ingest maxSize s d f ct c n = (Except.error IngestError.invalidFilename, s) := by
  have hv : validFilename f = false := by
    unfold validFilename
    rcases hf with rfl | hf | hf
    · rfl
    · have hall : f.data.all (fun ch => !(ch == '/') && !(ch == '\\')) = false := by
        rw [Bool.eq_false_iff]
        intro hall
        rw [List.all_eq_true] at hall
        simpa using hall '/' hf
      rw [hall, Bool.and_false]
    · have hall : f.data.all (fun ch => !(ch == '/') && !(ch == '\\')) = false := by
        rw [Bool.eq_false_iff]
        intro hall
        rw [List.all_eq_true] at hall
        simpa using hall '\\' hf
      rw [hall, Bool.and_false]
  unfold ingest
  rw [hv]
  simp

/-- Witness for claim C4: the spec's scenario filename "../etc/passwd". -/
theorem ingest_invalid_filename_witness :
    ingest 100 initState "d" "../etc/passwd" "text/plain" [1] 1 =
      (Except.error IngestError.invalidFilename, initState) :=
  ingest_invalid_filename 100 initState "d" "../etc/passwd" "text/plain" [1] 1
    (Or.inr (Or.inl (by decide)))

/-! ## Claim C5 -/

/-- Claim C5, counterexample: an ingest call with declared size 0 whose
filename is also invalid fails with the invalid-filename error, not the
empty-payload error — the filename check comes first — so the claim as
universally stated is false. -/
theorem ingest_zero_size_counterexample :
    (ingest 100 initState "d" "../etc/passwd" "text/plain" [] 0).1 =
        Except.error IngestError.invalidFilename ∧
      (Except.error IngestError.invalidFilename : Except IngestError UploadRecord) ≠
        Except.error IngestError.emptyPayload := by
  refine ⟨rfl, ?_⟩
  intro hcontra
  injection hcontra with h2
  exact absurd h2 (by decide)

/-- Claim C5 (amended): every ingest call with declared size 0 whose
filename passes the (first) filename validation fails with the
empty-payload error and leaves the state unchanged: no record is created
and no blob is retained. -/
theorem ingest_zero_size (maxSize : Nat) (s : ServiceState) (d f ct : String) (c : Bytes)
    (hf : validFilename f = true) :
    ingest maxSize s d f ct c 0 = (Except.error IngestError.emptyPayload, s) := by
  unfold ingest
  rw [hf]
  simp

/-- Witness for the amended claim C5: a valid filename with size 0. -/
theorem ingest_zero_size_witness :
    ingest 100 initState "d" "a.pdf" "text/plain" [] 0 =
      (Except.error IngestError.emptyPayload, initState) :=
  ingest_zero_size 100 initState "d" "a.pdf" "text/plain" [] rfl

/-! ## Claim C6 -/

/-- Claim C6: in every reachable state the ids of the records, taken in
insertion order, are strictly increasing, hence pairwise distinct. -/
theorem record_ids_distinct_increasing (s : ServiceState) (hs : Reachable s) :
    s.records.Pairwise (fun a b => a.id < b.id) ∧
      (s.records.map UploadRecord.id).Nodup := by
  have h := (reachable_inv hs).recOrder
  refine ⟨h.imp (fun hab => hab.1), ?_⟩
  have hne : s.records.Pairwise (fun a b => UploadRecord.id a ≠ UploadRecord.id b) :=
    h.imp (fun hab => Nat.ne_of_lt hab.1)
  exact List.pairwise_map.mpr hne

/-- Witness for claim C6 at the concrete two-ingest state. -/
theorem record_ids_distinct_increasing_witness :
    svcTwo.records.Pairwise (fun a b => a.id < b.id) ∧
      (svcTwo.records.map UploadRecord.id).Nodup :=
  record_ids_distinct_increasing svcTwo reachable_svcTwo

/-! ## Claim C7 -/

/-- Claim C7: for an id absent from the registry, `resolve`, `get` and
the delete flow all fail with `NotFoundError`; `resolve` and `get` are
read-only by construction and the failing delete returns the state
unchanged, so registry and blob store are untouched. -/
theorem absent_id_not_found (s : ServiceState) (i : Nat)
    (h : registryGet s i = none) :
    resolve s i = Except.error LookupError.notFound ∧
      registryGetOp s i = Except.error LookupError.notFound ∧
      coordDelete s i = (Except.error LookupError.notFound, s) := by
  refine ⟨resolve_eq_notFound h, ?_, coordDelete_none_eq h⟩
  unfold registryGetOp
  rw [h]

/-- Witness for claim C7: id 7 in the empty initial state. -/
theorem absent_id_not_found_witness :
    resolve initState 7 = Except.error LookupError.notFound ∧
      registryGetOp initState 7 = Except.error LookupError.notFound ∧
      coordDelete initState 7 = (Except.error LookupError.notFound, initState) :=
  absent_id_not_found initState 7 rfl

lemma registryGet_mem_id {s : ServiceState} {i : Nat} {r : UploadRecord}
    (h : registryGet s i = some r) : r ∈ s.records ∧ r.id = i :=
  ⟨List.mem_of_find?_eq_some h, by simpa using List.find?_some h⟩

lemma registryGet_unique {s : ServiceState} (hinv : SvcInv s) {i : Nat}
    {q r : UploadRecord} (hq : q ∈ s.records) (hqid : q.id = i)
    (hr : r ∈ s.records) (hrid : r.id = i) : q = r := by
  by_contra hne
  have hp : s.records.Pairwise (fun a b : UploadRecord => a.id ≠ b.id) :=
    hinv.recOrder.imp (fun hab => Nat.ne_of_lt hab.1)
  exact (List.Pairwise.forall (fun _ _ hab => Ne.symm hab) hp hq hr hne)
    (hqid.trans hrid.symm)

/-! ## Claim C8 -/

/-- Claim C8: `createdAt` is immutable — across any single public
state-changing operation, a record that exists before and after (same id)
keeps its creation timestamp unchanged (in fact the whole record is
unchanged, since no operation updates fields of existing records). -/
theorem createdAt_immutable (s s' : ServiceState) (i : Nat) (r r' : UploadRecord)
    (hs : Reachable s) (hstep : Step s s')
    (hr : registryGet s i = some r) (hr' : registryGet s' i = some r') :
    r'.createdAt = r.createdAt := by
  have hinv := reachable_inv hs
  obtain ⟨hrmem, hrid⟩ := registryGet_mem_id hr
  suffices hrr : r' = r by rw [hrr]
  cases hstep with
  | ingestOp maxSize d f ct c n =>
    rcases hres : ingest maxSize s d f ct c n with ⟨res, s2⟩
    rw [hres] at hr'
    rcases res with e | q
    · rw [ingest_err_eq hres] at hr'
      have h2 : registryGet s i = some r' := hr'
      rw [hr] at h2
      exact (Option.some.inj h2).symm
    · obtain ⟨hq, hs2⟩ := ingest_ok_eq hres
      subst hs2
      have hfind : s.records.find? (fun x => x.id == i) = some r := hr
      have hr'' : (s.records ++
          [({ id := s.nextId, description := d, storageKey := s.nextKey,
              originalFilename := f, contentType := ct, sizeBytes := n,
              createdAt := s.clock } : UploadRecord)]).find?
          (fun x => x.id == i) = some r' := hr'
      rw [List.find?_append, hfind] at hr''
      simp only [Option.or_some] at hr''
      exact (Option.some.inj hr'').symm
  | deleteOp j =>
    rcases hg : registryGet s j with _ | q
    · rw [coordDelete_none_eq hg] at hr'
      have h2 : registryGet s i = some r' := hr'
      rw [hr] at h2
      exact (Option.some.inj h2).symm
    · rw [coordDelete_some_eq hg] at hr'
      have hr'' : (s.records.filter (fun x => x.id != j)).find?
          (fun x => x.id == i) = some r' := hr'
      have hr'mem : r' ∈ s.records :=
        List.mem_of_mem_filter (List.mem_of_find?_eq_some hr'')
      have hr'id : r'.id = i := by simpa using List.find?_some hr''
      exact registryGet_unique hinv hr'mem hr'id hrmem hrid

/-- Witness for claim C8: record 1 survives a second ingest with its
creation timestamp intact. -/
theorem createdAt_immutable_witness : recOne.createdAt = recOne.createdAt :=
  createdAt_immutable svcOne svcTwo 1 recOne recOne reachable_svcOne
    (Step.ingestOp svcOne 100 "second" "b.txt" "text/plain" [9] 1)
    (by rfl) (by rfl)

lemma ingestMany_cons_ok {maxSize : Nat} {s s1 : ServiceState} {d f ct : String} {c : Bytes}
    {n : Nat} {q : UploadRecord} {rest : List IngestArgs}
    (h : ingest maxSize s d f ct c n = (Except.ok q, s1)) :
    ingestMany maxSize s ((d, f, ct, c, n) :: rest) =
      (q :: (ingestMany maxSize s1 rest).1, (ingestMany maxSize s1 rest).2) := by
  show (match ingest maxSize s d f ct c n with
      | (Except.ok r, s2) =>
        let tail := ingestMany maxSize s2 rest
        (r :: tail.1, tail.2)
      | (Except.error _, s2) => ingestMany maxSize s2 rest) =
    (q :: (ingestMany maxSize s1 rest).1, (ingestMany maxSize s1 rest).2)
  rw [h]

lemma ingestMany_cons_err {maxSize : Nat} {s s1 : ServiceState} {d f ct : String} {c : Bytes}
    {n : Nat} {e : IngestError} {rest : List IngestArgs}
    (h : ingest maxSize s d f ct c n = (Except.error e, s1)) :
    ingestMany maxSize s ((d, f, ct, c, n) :: rest) = ingestMany maxSize s1 rest := by
  show (match ingest maxSize s d f ct c n with
      | (Except.ok r, s2) =>
        let tail := ingestMany maxSize s2 rest
        (r :: tail.1, tail.2)
      | (Except.error _, s2) => ingestMany maxSize s2 rest) =
    ingestMany maxSize s1 rest
  rw [h]

lemma ingest_counters_le {maxSize : Nat} {s : ServiceState} {d f ct : String} {c : Bytes}
    {n : Nat} {res : Except IngestError UploadRecord} {s1 : ServiceState}
    (h : ingest maxSize s d f ct c n = (res, s1)) :
    s.nextId ≤ s1.nextId ∧ s.nextKey ≤ s1.nextKey := by
  rcases res with e | r
  · rw [ingest_err_eq h]
    exact ⟨Nat.le_refl _, Nat.le_refl _⟩
  · obtain ⟨_, hs1⟩ := ingest_ok_eq h
    rw [hs1]
    exact ⟨Nat.le_succ _, Nat.le_succ _⟩

lemma ingestMany_lb (maxSize : Nat) :
    ∀ (args : List IngestArgs) (s : ServiceState) (r : UploadRecord),
      r ∈ (ingestMany maxSize s args).1 → s.nextId ≤ r.id ∧ s.nextKey ≤ r.storageKey := by
  intro args
  induction args with
  | nil =>
    intro s r hr
    simp [ingestMany] at hr
  | cons hd rest ih =>
    intro s r hr
    rcases hd with ⟨d, f, ct, c, n⟩
    rcases hres : ingest maxSize s d f ct c n with ⟨res, s1⟩
    rcases res with e | q
    · rw [ingestMany_cons_err hres] at hr
      have hih := ih s1 r hr
      have hle := ingest_counters_le hres
      exact ⟨Nat.le_trans hle.1 hih.1, Nat.le_trans hle.2 hih.2⟩
    · rw [ingestMany_cons_ok hres] at hr
      obtain ⟨hq, hs1⟩ := ingest_ok_eq hres
      subst hs1
      rcases List.mem_cons.1 hr with rfl | hr
      · rw [hq]
        exact ⟨Nat.le_refl _, Nat.le_refl _⟩
      · have hih := ih _ r hr
        exact ⟨Nat.le_trans (Nat.le_succ _) hih.1, Nat.le_trans (Nat.le_succ _) hih.2⟩

/-! ## Claim C9 -/

/-- Claim C9: running any batch of ingest calls (any interleaving of
concurrent callers, each operation atomic, filenames arbitrary and
possibly identical) from any state yields records with pairwise distinct
ids and pairwise distinct storage keys, so no two blobs collide. -/
theorem ingestMany_distinct (maxSize : Nat) (s : ServiceState) (args : List IngestArgs) :
    ((ingestMany maxSize s args).1).Pairwise
      (fun a b => a.id ≠ b.id ∧ a.storageKey ≠ b.storageKey) := by
  induction args generalizing s with
  | nil => simp [ingestMany]
  | cons hd rest ih =>
    rcases hd with ⟨d, f, ct, c, n⟩
    rcases hres : ingest maxSize s d f ct c n with ⟨res, s1⟩
    rcases res with e | q
    · rw [ingestMany_cons_err hres]
      exact ih s1
    · rw [ingestMany_cons_ok hres]
      rw [List.pairwise_cons]
      refine ⟨?_, ih s1⟩
      intro b hb
      obtain ⟨hq, hs1⟩ := ingest_ok_eq hres
      subst hs1
      have hlb := ingestMany_lb maxSize rest _ b hb
      rw [hq]
      exact ⟨Nat.ne_of_lt (Nat.lt_of_lt_of_le (Nat.lt_succ_self _) hlb.1),
        Nat.ne_of_lt (Nat.lt_of_lt_of_le (Nat.lt_succ_self _) hlb.2)⟩
